import Mathlib

/-!
Verification development for the rtl_433 protocol-decoding layer of this
repository.  The device decoders under `src/devices/` are embedded shallowly:
bit rows become `List Bool`, bytes become `Nat` (reduced mod 256 where the C
truncates), readings become ordered lists of named field values, and each
decoder becomes a total Lean function on those types.  Shared primitives that
the repository calls but whose sources are not part of it (bitbuffer accessors,
`bitbuffer_search`, `bitbuffer_manchester_decode`,
`bitbuffer_find_repeated_row`, `crc8`, `data_append`) are modelled from the
specification and marked as such in their doc comments.
-/

namespace RTL433

/-- A packet: the ordered collection of bit rows handed over by the
demodulator.  `rows` is the list of rows; each row is a bit sequence. -/
structure BitBuffer where
  rows : List (List Bool)
deriving DecidableEq, Repr

/-- Modelled from the spec: the Bit-Row Buffer is a fixed array of zeroed rows
in the reference implementation, so reading a row index beyond the filled count
yields an all-zero row. -/
def rowAt (bb : BitBuffer) (i : Nat) : List Bool :=
  bb.rows.getD i []

/-- Modelled from the spec: bit-at-index accessor (`bitrow_get_bit`, not under
src/).  Bits beyond the row length read as 0, matching the zero-initialised
buffer of the reference implementation. -/
def bit (bs : List Bool) (i : Nat) : Nat :=
  if bs.getD i false then 1 else 0

/-- Modelled from the spec: byte-at-bit-offset accessor (`bitrow_get_byte`,
not under src/): the unsigned value formed by concatenating 8 bits
most-significant-first starting at `pos`. -/
def byteAt (bs : List Bool) (pos : Nat) : Nat :=
  128 * bit bs pos + 64 * bit bs (pos + 1) + 32 * bit bs (pos + 2) +
    16 * bit bs (pos + 3) + 8 * bit bs (pos + 4) + 4 * bit bs (pos + 5) +
    2 * bit bs (pos + 6) + bit bs (pos + 7)

theorem bit_le_one (bs : List Bool) (i : Nat) : bit bs i ≤ 1 := by
  unfold bit; split <;> omega

theorem byteAt_lt_256 (bs : List Bool) (pos : Nat) : byteAt bs pos < 256 := by
  unfold byteAt
  have h0 := bit_le_one bs pos
  have h1 := bit_le_one bs (pos + 1)
  have h2 := bit_le_one bs (pos + 2)
  have h3 := bit_le_one bs (pos + 3)
  have h4 := bit_le_one bs (pos + 4)
  have h5 := bit_le_one bs (pos + 5)
  have h6 := bit_le_one bs (pos + 6)
  have h7 := bit_le_one bs (pos + 7)
  omega

/-- A field value of a Reading.  `DATA_INT` becomes `.i`, `DATA_DOUBLE`
becomes an exact rational `.q` (all division constants of the embedded
decoders are exact at the claims' inputs), `DATA_STRING` becomes `.s`, and
hex-rendered byte strings become the structured `.hexs`.  A formatted
timestamp keeps its seven components in `.time`. -/
inductive Value where
  | i (n : Int)
  | q (x : ℚ)
  | s (t : String)
  | hexs (bytes : List Nat)
  | time (parts : List Nat)
deriving DecidableEq, Repr

/-- A Reading: an ordered sequence of named fields. -/
abbrev Reading := List (String × Value)

/-- Modelled from the spec: `data_append` (not under src/) appends one field
at the end of the append-only key-value chain and leaves the head unchanged. -/
def data_append (data : Reading) (name : String) (v : Value) : Reading :=
  data ++ [(name, v)]

/-- The outcome of one decode call, mirroring the `DECODE_*` return values of
the reference decoders plus the emitted Reading on success. -/
inductive Result where
  | failOther
  | abortEarly
  | abortLength
  | failMIC
  | failSanity
  | emit (r : Reading)
deriving DecidableEq, Repr

/-! ## Honeywell CM921 (`src/devices/honeywell_cm921.c`)

The framed-protocol (thermostat) decoder: preamble search, start/stop frame
stripping, header/footer validation, Manchester decoding, message parsing and
command interpretation. -/

/-- Modelled from the spec: pattern search within a row (`bitbuffer_search`,
not under src/).  Returns the bit offset of the start of the first full match
of `pattern`, or `none` when the scan exhausts the row; the in-src caller maps
`none` to the row's bit length before adding the pattern length. -/
def bbSearch (row pattern : List Bool) : Option Nat :=
  (List.range (row.length + 1)).find? fun p =>
    decide (p + pattern.length ≤ row.length) &&
      (List.range pattern.length).all fun i =>
        row.getD (p + i) false == pattern.getD i false

/-- One start/stop-framed 10-bit group read (`get_byte` in
honeywell_cm921.c): a start bit that must be 0, 8 data bits assembled
most-significant-first, a stop bit that must be 1, with a bounds check before
and after every read (the check after the stop bit requires one extra bit
before `end`).  The C function returns 10 on success and an abort/sanity code
otherwise; its only caller distinguishes success from everything else, so the
embedding returns `some byte` exactly when the C returns 10. -/
def get_byte (row : List Bool) (pos e : Nat) : Option Nat :=
  if e ≤ pos then none
  else if bit row pos ≠ 0 then none
  else if e ≤ pos + 9 then none
  else if bit row (pos + 9) ≠ 1 then none
  else if e ≤ pos + 10 then none
  else some (byteAt row (pos + 1))

/-- The frame-stripping loop of `honeywell_cm921_decode`: from `pos` to `e`,
keep consuming 10-bit groups; stop (without error) at the first group
`get_byte` refuses.  The loop is given structurally as recursion on a `fuel`
bound: every iteration advances `pos` by 10, so the caller's fuel `e - pos`
strictly exceeds the possible iteration count and the cutoff is never hit
(`stripLoop_fuel` below). -/
def stripLoop (row : List Bool) : Nat → Nat → Nat → List Nat
  | 0, _, _ => []
  | fuel + 1, pos, e =>
    if pos < e then
      match get_byte row pos e with
      | some b => b :: stripLoop row fuel (pos + 10) e
      | none => []
    else []

/-- Any fuel of at least `e - pos` gives the same frame-stripping result: the
fuel cutoff of `stripLoop` is unreachable from its call site. -/
theorem stripLoop_fuel (row : List Bool) :
    ∀ (f pos e : Nat), e - pos ≤ 10 * f →
      stripLoop row (f + 1) pos e = stripLoop row f pos e := by
  intro f
  induction f with
  | zero =>
    intro pos e h
    simp only [stripLoop]
    rw [if_neg (by omega)]
  | succ g ih =>
    intro pos e h
    conv_lhs => rw [stripLoop]
    conv_rhs => rw [stripLoop]
    by_cases hp : pos < e
    · rw [if_pos hp, if_pos hp]
      cases hgb : get_byte row pos e with
      | some b => simp only [hgb]; exact congrArg _ (ih (pos + 10) e (by omega))
      | none => simp only [hgb]
    · rw [if_neg hp, if_neg hp]

/-- The stripped bytes are re-assembled into a dense bit stream by
`bitbuffer_add_bit((byte >> i) & 1)` for `i = 0..7`, i.e. each byte enters the
stream least-significant bit first. -/
def bytesStream (bytes : List Nat) : List Bool :=
  (bytes.map fun b => (List.range 8).map fun i => b.testBit i).flatten

/-- The fixed 30-bit preamble pattern `{0x55, 0x5F, 0xF0, 0x04}` of
`honeywell_cm921_decode` (first 30 bits, most-significant-first). -/
def preamblePattern : List Bool :=
  [false, true, false, true, false, true, false, true,
   false, true, false, true, true, true, true, true,
   true, true, true, true, false, false, false, false,
   false, false, false, false, false, true]

/-- The header gate of `honeywell_cm921_decode`: the first three re-assembled
bytes must be `0x33 0x55 0x53`. -/
def headerOk (bs : List Bool) : Bool :=
  byteAt bs 0 == 0x33 && byteAt bs 8 == 0x55 && byteAt bs 16 == 0x53

/-- The backward footer scan of `honeywell_cm921_decode`: starting at `fi`,
step back one byte at a time over `0x55` filler; `seen` records whether at
least one filler byte was seen.  The C loop has no lower bound check and would
read below bit 0 of the row; that out-of-bounds continuation is modelled as
`none`.  The scan is structural recursion on a `fuel` bound; every step drops
`fi` by 8, so the caller's fuel `fi + 1` is never exhausted
(`footerScan_fuel` below). -/
def footerScan (bs : List Bool) : Nat → Nat → Bool → Option (Nat × Bool)
  | 0, _, _ => none
  | fuel + 1, fi, seen =>
    if byteAt bs fi == 0x55 then
      if fi < 8 then none else footerScan bs fuel (fi - 8) true
    else some (fi, seen)

/-- Any fuel exceeding `fi / 8` gives the same footer-scan result: the fuel
cutoff of `footerScan` is unreachable from its call site. -/
theorem footerScan_fuel (bs : List Bool) :
    ∀ (f fi : Nat) (seen : Bool), fi < 8 * f →
      footerScan bs (f + 1) fi seen = footerScan bs f fi seen := by
  intro f
  induction f with
  | zero => intro fi seen h; omega
  | succ g ih =>
    intro fi seen h
    by_cases h55 : byteAt bs fi == 0x55
    · by_cases h8 : fi < 8
      · simp only [footerScan, if_pos h55, if_pos h8]
      · simp only [footerScan, if_pos h55, if_neg h8]
        exact ih (fi - 8) true (by omega)
    · simp only [footerScan, if_neg h55]

/-- Modelled from the spec: Manchester decoding (`bitbuffer_manchester_decode`,
not under src/): consume the region two bits at a time, `10` decodes to
logical 1 and `01` to logical 0; any other pair is a decode error — a
best-effort logical bit (the pair's first bit) is emitted anyway and the scan
advances.  Returns the decoded logical bits and the count of invalid pairs. -/
def manchester : List Bool → List Bool × Nat
  | a :: b :: rest =>
    let (l, e) := manchester rest
    if a = true ∧ b = false then (true :: l, e)
    else if a = false ∧ b = true then (false :: l, e)
    else (a :: l, e + 1)
  | _ => ([], 0)

/-- The message structure of the framed protocol (`message_t`).  Device
identifiers are kept as the flat list of their 3-byte groups' bytes. -/
structure Message where
  header : Nat := 0
  num_device_ids : Nat := 0
  device_id : List Nat := []
  command : Nat := 0
  payload_length : Nat := 0
  payload : List Nat := []
  unparsed_length : Nat := 0
  unparsed : List Nat := []
  crc : Nat := 0
deriving DecidableEq, Repr

/-- The `next` reader in honeywell_cm921.c: read the byte at bit `ipos`, advance by 8;
if the advanced position is at or past the end the C returns
`DECODE_FAIL_SANITY` truncated to a byte instead of the value (the numeric
code lives in decoder.h, not under src/; `252` is `-4` as a byte and no claim
depends on it). -/
def nextB (bs : List Bool) (numBytes ipos : Nat) : Nat × Nat :=
  let r := byteAt bs ipos
  (if numBytes * 8 ≤ ipos + 8 then 252 else r, ipos + 8)

/-- Repeated reads: `n` consecutive `next` calls. -/
def readN (bs : List Bool) (numBytes : Nat) : Nat → Nat → List Nat × Nat
  | 0, ipos => ([], ipos)
  | n + 1, ipos =>
    let (b, p1) := nextB bs numBytes ipos
    let (rest, p2) := readN bs numBytes n p1
    (b :: rest, p2)

/-- The bytes the checksum stage of `parse_msg` sums: one byte per 8 bits of
the decoded region, read at bit offsets `0, 8, 16, ...`. -/
def msgBytes (bs : List Bool) : List Nat :=
  (List.range (bs.length / 8)).map fun i => byteAt bs (8 * i)

/-- The `parse_msg` stage of honeywell_cm921.c on the Manchester-decoded region: the
running byte-sum checksum accepts only if all bytes add up to 0 mod 256; on
failure the zero-initialised message (with only `crc` filled in, as in the C)
is returned with `false`.  Otherwise the message is parsed sequentially:
header byte, device identifiers (count from bits 2-3 of the header), 2-byte
big-endian command (the C's two unsequenced `next` calls are taken
high-byte-first), payload length, payload, then the unparsed residue.  The
subtractions mirror the C's unsigned arithmetic at the in-range inputs the
decoder supplies. -/
def parse_msg (bs : List Bool) : Bool × Message :=
  let numBytes := bs.length / 8
  let bsum := (msgBytes bs).sum % 256
  let crc := byteAt bs (bs.length - 8)
  if bsum ≠ 0 then (false, { crc := crc }) else
  let (header, p1) := nextB bs numBytes 0
  let nids := (header / 4) % 4
  let (ids, p2) := readN bs numBytes (3 * nids) p1
  let (chi, p3) := nextB bs numBytes p2
  let (clo, p4) := nextB bs numBytes p3
  let command := chi * 256 + clo
  let (plen, p5) := nextB bs numBytes p4
  let (payload, p6) := readN bs numBytes plen p5
  let numUnparsedBits := (bs.length - 8) - p6
  -- C operator precedence: `(a/8 + a%8) ? 1 : 0`, so the length is 1 or 0.
  let ulen := if numUnparsedBits / 8 + numUnparsedBits % 8 ≠ 0 then 1 else 0
  let unparsed := if ulen ≠ 0 then
      (List.range ulen).map (fun i => byteAt bs (p6 + 8 * i)) else []
  (true, { header := header, num_device_ids := nids, device_id := ids,
           command := command, payload_length := plen, payload := payload,
           unparsed_length := ulen, unparsed := unparsed, crc := crc })

/-- The fixed device-type table `device_map` of honeywell_cm921.c.  The C
literals `01`..`07` are octal; `10` onward are decimal. -/
def device_map : List (Nat × String) :=
  [(1, "CTL"), (2, "UFH"), (3, " 30"), (4, "TRV"), (7, "DHW"), (10, "OTB"),
   (12, "THm"), (13, "BDR"), (17, " 17"), (18, "HGI"), (22, "THM"),
   (30, "GWY"), (32, "VNT"), (34, "STA"), (63, "NUL")]

/-- Device-identifier decoding (`decode_device_id`): the top 6 bits of the first identifier byte select a
device-type tag from `device_map` (default placeholder tag " --"); the
remaining 18 bits form the serial.  The C renders the pair as the string
"%3s:%06d"; the embedding keeps the structured pair. -/
def decode_device_id (b0 b1 b2 : Nat) : String × Nat :=
  let devType := b0 / 4
  let devName := device_map.foldl (fun acc e => if e.1 == devType then e.2 else acc) " --"
  (devName, (b0 % 4) * 65536 + (b1 % 256) * 256 + b2 % 256)

/-- Device-identifier list rendering (`decode_device_ids`) with `style = 1` renders the identifier bytes of every
device id as one hex string; the embedding keeps the byte list structured. -/
def decode_device_ids (msg : Message) (data : Reading) : Reading :=
  data_append data "Device IDs" (.hexs msg.device_id)

/-- Payload byte accessor (C array indexing). -/
def pl (msg : Message) (i : Nat) : Nat :=
  msg.payload.getD i 0

/-- The known-parameter loop of command 0x1030: five 3-byte groups, each
appending one named field selected by its first byte (unknown selectors only
print a diagnostic). -/
def interpret1030 (msg : Message) (data : Reading) : Nat → Reading
  | 0 => data
  | n + 1 =>
    let i := 5 - (n + 1)
    let p := pl msg (1 + 3 * i)
    let value := pl msg (1 + 3 * i + 2)
    let data :=
      if p == 0xC8 then data_append data "max_flow_temp" (.i value)
      else if p == 0xC9 then data_append data "pump_run_time" (.i value)
      else if p == 0xCA then data_append data "actuator_run_time" (.i value)
      else if p == 0xCB then data_append data "min_flow_temp" (.i value)
      else data
    interpret1030 msg data n

/-- Command interpretation (`interpret_message`): append the device-id field, then dispatch on the
command code; a recognised code with an unexpected payload length, or an
unknown code, appends only the raw command code under "unknown"
(the `UNKNOWN_IF` macro). -/
def interpret_message (msg : Message) (data : Reading) : Reading :=
  let data := decode_device_ids msg data
  let unknown := data_append data "unknown" (.i msg.command)
  if msg.command == 0x1030 then
    if msg.payload_length ≠ 16 then unknown else
    let data := data_append data "zone_idx" (.i (pl msg 0))
    interpret1030 msg data 5
  else if msg.command == 0x313F then
    if msg.payload_length ≠ 1 ∧ msg.payload_length ≠ 9 then unknown else
    if msg.payload_length == 1 then
      data_append data "time_request" (.i (pl msg 0))
    else
      -- X313F layout: second, minute, hour (low 5 bits) / day-of-week
      -- (high 3 bits), day, month, 2-byte year.
      data_append data "time" (.time [pl msg 4 % 32, pl msg 3, pl msg 2,
        pl msg 5, pl msg 6, (pl msg 7) * 256 + pl msg 8])
  else if msg.command == 0x0008 then
    if msg.payload_length ≠ 2 then unknown else
    let data := data_append data "domain_id" (.i (pl msg 0))
    data_append data "demand" (.q ((pl msg 1 : ℚ) / 200))
  else if msg.command == 0x3ef0 then
    if msg.payload_length ≠ 3 ∧ msg.payload_length ≠ 6 then unknown else
    if msg.payload_length == 3 then
      data_append data "status" (.q ((pl msg 1 : ℚ) / 200))
    else
      let data := data_append data "boiler_modulation_level" (.q ((pl msg 1 : ℚ) / 200))
      data_append data "flame_status" (.i (pl msg 3))
  else if msg.command == 0x2309 then
    if msg.payload_length ≠ 3 then unknown else
    let data := data_append data "zone" (.i (pl msg 0))
    data_append data "setpoint" (.q (((pl msg 1) * 256 + pl msg 2 : ℚ) / 100))
  else if msg.command == 0x1100 then
    if msg.payload_length ≠ 5 ∧ msg.payload_length ≠ 8 then unknown else
    let data := data_append data "domain_id" (.i (pl msg 0))
    let data := data_append data "cycle_rate" (.q ((pl msg 1 : ℚ) / 4))
    let data := data_append data "minimum_on_time" (.q ((pl msg 2 : ℚ) / 4))
    let data := data_append data "minimum_off_time" (.q ((pl msg 3 : ℚ) / 4))
    if msg.payload_length == 8 then
      data_append data "proportional_band_width" (.q (((pl msg 5) * 256 + pl msg 6 : ℚ) / 100))
    else data
  else if msg.command == 0x0009 then
    if msg.payload_length ≠ 3 then unknown else
    let data := data_append data "device_number" (.i (pl msg 0))
    if pl msg 1 == 0 then data_append data "failsafe_mode" (.s "off")
    else if pl msg 1 == 1 then data_append data "failsafe_mode" (.s "20-80")
    else data_append data "failsafe_mode" (.s "unknown")
  else if msg.command == 0x3B00 then
    if msg.payload_length ≠ 2 then unknown else
    let data := data_append data "domain_id" (.i (pl msg 0))
    data_append data "state" (.q ((pl msg 1 : ℚ) / 200))
  else unknown

/-- The `hex` helper in honeywell_cm921.c: the bytes of a row, one per started group of
8 bits (the hex rendering itself is kept structured). -/
def hexOfRow (bits : List Bool) : List Nat :=
  (List.range ((bits.length + 7) / 8)).map fun i => byteAt bits (8 * i)

/-- Hex-field helper (`add_hex_string`): append a hex-rendered byte buffer, skipping empty
buffers. -/
def add_hex_string (data : Reading) (name : String) (buf : List Nat) : Reading :=
  if 0 < buf.length then data_append data name (.hexs buf) else data

/-- The `#ifdef _DEBUG` diagnostic fields appended after interpretation:
header, command (2 bytes), payload, unparsed residue, checksum byte and the
Manchester error count. -/
def debugFields (msg : Message) (manErrors : Nat) (data : Reading) : Reading :=
  let data := add_hex_string data "Header" [msg.header]
  let data := add_hex_string data "Command" [msg.command / 256, msg.command % 256]
  let data := add_hex_string data "Payload" msg.payload
  let data := add_hex_string data "Unparsed" msg.unparsed
  let data := add_hex_string data "CRC" [msg.crc]
  data_append data "# man errors" (.i manErrors)

/-- The re-assembled dense byte stream produced by the frame-stripping stage,
from immediately after the preamble to the row end. -/
def hwBytes (row : List Bool) (start : Nat) : List Bool :=
  bytesStream (stripLoop row (row.length - start) start row.length)

/-- The tail of `honeywell_cm921_decode` from the Manchester stage on: decode
the region between header and footer, reject on any error in a non-diagnostic
build, emit the model and packet hex, parse and (when the checksum holds)
interpret the message, and append the diagnostic fields in a debug build. -/
def hwAfterFooter (dbg : Bool) (bs : List Bool) (fi : Nat) : Option Result :=
  let numBits := fi - 24
  let region := (bs.drop 24).take numBits
  let (packetBits, manErrors) := manchester region
  if dbg = false ∧ manErrors ≠ 0 then some .failSanity else
  let data : Reading := [("model", .s "Honeywell CM921"),
                         ("Packet", .hexs (hexOfRow packetBits))]
  let (ok, msg) := parse_msg packetBits
  let data := if ok then interpret_message msg data else data
  let data := if dbg then debugFields msg manErrors data else data
  some (.emit data)

/-- The decoder `honeywell_cm921_decode`, with the `_DEBUG` conditional compilation made
explicit as the `dbg` argument (the source file defines `_DEBUG`, i.e. is
compiled with `dbg = true`; `dbg = false` is the non-diagnostic build).  The
result is `none` exactly when the C performs an out-of-bounds row read (the
footer scan running below bit 0). -/
def honeywell_cm921_decode (dbg : Bool) (bb : BitBuffer) : Option Result :=
  let row := rowAt bb 0
  if bb.rows.length ≠ 1 ∨ row.length < 60 then some .abortLength else
  -- not-found is the row length in the C, making `len = -30 < 8` below
  let preambleStart := (bbSearch row preamblePattern).getD row.length
  let start := preambleStart + 30
  if row.length < start + 8 then some .abortLength else
  let bs := hwBytes row start
  if ¬ headerOk bs then some .failSanity else
  match footerScan bs ((bs.length - 8) + 1) (bs.length - 8) false with
  | none => none
  | some (fi, seen) =>
    if seen = false ∨ byteAt bs fi ≠ 0x35 then some .failSanity else
    hwAfterFooter dbg bs fi

/-! ## Auriol AFW2A1 (`src/devices/auriol_afw2a1.c`) -/

/-- Modelled from the spec: repeated-row consensus
(`bitbuffer_find_repeated_row`, not under src/): the index of a row of at
least the expected bit length that appears bit-identical at least
`minRepeats` times in the packet, or `none`; the C returns `-1` for
`none`. -/
def findRepeatedRow (bb : BitBuffer) (minRepeats minBits : Nat) : Option Nat :=
  (List.range bb.rows.length).find? fun i =>
    decide (minBits ≤ (rowAt bb i).length) &&
      decide (minRepeats ≤ (bb.rows.filter fun r => r == rowAt bb i).length)

/-- Reinterpret the low 16 bits of a value as a two's-complement `int16_t`. -/
def toInt16 (n : Nat) : Int :=
  if n % 65536 < 32768 then (n % 65536 : Int) else (n % 65536 : Int) - 65536

/-- auriol_afw2a1.c line 99: `temp_raw = ((b[1] & 0x0f) << 12) | (b[2] << 4)`
stored in an `int16_t`. -/
def auriol_temp_raw (b1 b2 : Nat) : Int :=
  toInt16 ((b1 % 16) * 4096 + (b2 % 256) * 16)

/-- auriol_afw2a1.c line 100: `temp_raw >> 4` with `temp_raw : int16_t` — an
arithmetic shift that replicates the sign bit (floor division by 16). -/
def auriol_temp_shifted (b1 b2 : Nat) : Int :=
  Int.fdiv (auriol_temp_raw b1 b2) 16

/-- The value of a 12-bit two's-complement field (what the spec says the
sign-extending extraction must produce). -/
def signed12 (p : Nat) : Int :=
  if p % 4096 < 2048 then (p % 4096 : Int) else (p % 4096 : Int) - 4096

/-- The decoder `auriol_afw2a1_decode`.  The result is `none` exactly when the C reads
`bb[-1]`: the consensus search found no row but the row-count and length gates
passed.  The source compares `humidity_rel`, an undeclared symbol; per the
spec's design note the locally computed `humidity` is used (its `< 0x00` arm
is vacuous on an unsigned value). -/
def auriol_afw2a1_decode (bb : BitBuffer) : Option Result :=
  let row? := findRepeatedRow bb 12 36
  if bb.rows.length ≠ 12 then some .abortEarly
  else if ¬ ((List.range 12).all fun i => (rowAt bb i).length == 36) then some .abortLength
  else match row? with
  | none => none
  | some r =>
    let row := rowAt bb r
    let b0 := byteAt row 0
    let b1 := byteAt row 8
    let b2 := byteAt row 16
    let b3 := byteAt row 24
    let b4 := byteAt row 32
    let channel := b1 / 16
    let temp_c : ℚ := (auriol_temp_shifted b1 b2 : ℚ) / 10
    if b3 / 16 ≠ 0xa then some .failSanity else
    let humidity := (b3 % 16) * 16 + b4 / 16
    if channel = 0x3 ∨ channel = 0x7 ∨ channel = 0xb ∨ channel = 0xf ∨
        0x64 < humidity ∨ temp_c < -511/10 ∨ 767/10 < temp_c then
      some .failSanity
    else
    let (channel, battery_low, tx_button) :=
      if channel = 0x0 ∨ channel = 0x1 ∨ channel = 0x2 then (channel + 1, true, false)
      else if channel = 0x4 ∨ channel = 0x5 ∨ channel = 0x6 then (channel - 4 + 1, true, true)
      else if channel = 0x8 ∨ channel = 0x9 ∨ channel = 0xa then (channel - 8 + 1, false, false)
      else if channel = 0xc ∨ channel = 0xd ∨ channel = 0xe then (channel - 12 + 1, false, true)
      else (channel, true, true)
    some (.emit [("model", .s "Auriol-AFW2A1"), ("id", .i b0),
      ("channel", .i channel), ("battery", .s (if battery_low then "LOW" else "OK")),
      ("button", .s (if tx_button then "true" else "false")),
      ("temperature_C", .q temp_c), ("humidity", .q (humidity : ℚ))])

/-! ## Holman WS5029 PWM (`src/devices/holman_ws5029.c`) -/

/-- holman_ws5029.c line 251: `temp_raw = (int16_t)(((b[4] & 0x0f) << 12) |
(b[5] << 4))` — but `temp_raw` is declared `uint16_t`, so only the low 16
bits survive. -/
def holman_temp_raw (b4 b5 : Nat) : Nat :=
  ((b4 % 16) * 4096 + (b5 % 256) * 16) % 65536

/-- holman_ws5029.c line 252: `temp_raw >> 4` with `temp_raw : uint16_t` — the
unsigned value promotes to a non-negative `int`, so the shift is logical and
does not replicate a sign bit. -/
def holman_temp_shifted (b4 b5 : Nat) : Nat :=
  holman_temp_raw b4 b5 / 16

/-! ## Calibeur RF-104 (`src/devices/calibeur.c`) -/

/-- Modelled from the spec: CRC-8 with configurable polynomial and initial
value, processing byte-at-a-time, most-significant-bit-first (`crc8` in
util.c, not under src/). -/
def crc8step (poly r : Nat) : Nat :=
  if 128 ≤ r then Nat.xor ((r * 2) % 256) poly else (r * 2) % 256

/-- Modelled from the spec: one CRC-8 byte: xor the byte into the remainder,
then eight polynomial steps. -/
def crc8 (msg : List Nat) (poly init : Nat) : Nat :=
  msg.foldl (fun rem b => (crc8step poly)^[8] (Nat.xor rem b)) init

/-- The decoder `calibeur_rf104_callback`: row 1 must have exactly 21 bits, the CRC-8
value (polynomial 0x80, init 0 — odd parity, per the source comment) of its
first 3 bytes must be non-zero, and rows 1 and 2 must agree on their first 3
bytes; then ID, temperature and humidity are extracted from interleaved bit
fields and a Reading is emitted, else the callback returns 0. -/
def calibeur_rf104_callback (bb : BitBuffer) : Result :=
  let row1 := rowAt bb 1
  let row2 := rowAt bb 2
  let b10 := byteAt row1 0
  let b11 := byteAt row1 8
  let b12 := byteAt row1 16
  if (rowAt bb 1).length = 21 ∧ crc8 [b10, b11, b12] 0x80 0 ≠ 0 ∧
      [b10, b11, b12] = [byteAt row2 0, byteAt row2 8, byteAt row2 16] then
    let bits := (b10 &&& 0x80) >>> 7 ||| (b10 &&& 0x40) >>> 5 |||
      (b10 &&& 0x20) >>> 3 ||| (b10 &&& 0x10) >>> 1 |||
      (b10 &&& 0x08) <<< 1 ||| (b10 &&& 0x04) <<< 3
    let id := bits / 10
    let tempFrac : ℚ := (bits % 10 : ℚ) / 10
    let bits2 := (b10 &&& 0x02) <<< 3 ||| (b10 &&& 0x01) <<< 5 |||
      (b11 &&& 0x80) >>> 7 ||| (b11 &&& 0x40) >>> 5 ||| (b11 &&& 0x20) >>> 3 |||
      (b11 &&& 0x10) >>> 1 ||| (b11 &&& 0x08) <<< 3
    let temperature : ℚ := tempFrac + (bits2 : ℚ) - 41
    let bits3 := (b11 &&& 0x02) <<< 4 ||| (b11 &&& 0x01) <<< 6 |||
      (b12 &&& 0x80) >>> 7 ||| (b12 &&& 0x40) >>> 5 ||| (b12 &&& 0x20) >>> 3 |||
      (b12 &&& 0x10) >>> 1 ||| (b12 &&& 0x08) <<< 1
    let humidity : ℚ := (bits3 : ℚ)
    -- `time` is the local wall-clock capture time, external to the core.
    .emit [("time", .s ""), ("model", .s "Calibeur RF-104"), ("id", .i id),
      ("temperature_C", .q temperature), ("humidity", .q humidity)]
  else .failOther

/-! ## Concrete packets used as witnesses and counterexamples -/

/-- The on-air frame of one logical byte of the framed protocol: start bit 0,
the byte's bits least-significant-first (the wire carries the bit-reversed
byte), stop bit 1. -/
def frameByte (l : Nat) : List Bool :=
  false :: ((List.range 8).map fun i => l.testBit i) ++ [true]

/-- An on-air honeywell row for a list of logical framed bytes: the 30-bit
preamble, the framed bytes, one trailing slack bit (the final stop-bit bounds
check of `get_byte` needs one bit after the last group). -/
def hwRowOf (ls : List Nat) : List Bool :=
  preamblePattern ++ (ls.map frameByte).flatten ++ [false]

/-- A complete honeywell packet whose Manchester region decodes to the single
byte 0x01, so the byte-sum checksum (1 mod 256) fails: logical bytes are the
header `33 55 53`, the Manchester pair-encoding `55 56` of 0x01, the footer
`35` and one filler `55`. -/
def hwBadSumBuf : BitBuffer :=
  ⟨[hwRowOf [0x33, 0x55, 0x53, 0x55, 0x56, 0x35, 0x55]]⟩

/-- A complete honeywell packet whose Manchester region `FF FF` consists of
eight invalid `11` pairs (error count 8): header, two all-ones region bytes,
footer, filler. -/
def hwManErrBuf : BitBuffer :=
  ⟨[hwRowOf [0x33, 0x55, 0x53, 0xFF, 0xFF, 0x35, 0x55]]⟩

/-- A single 60-bit all-zero row: long enough to pass the length gate, but the
preamble pattern does not occur in it. -/
def hwNoPreambleBuf : BitBuffer :=
  ⟨[List.replicate 60 false]⟩

/-- A single 59-bit row: shorter than the minimum viable length. -/
def hwShortBuf : BitBuffer :=
  ⟨[List.replicate 59 false]⟩

/-- A packet of 12 rows of 36 bits each, where row 0 differs from the 11 identical
others: no row is repeated 12 times. -/
def auriolBadBuf : BitBuffer :=
  ⟨(true :: List.replicate 35 false) :: List.replicate 11 (List.replicate 36 false)⟩

/-- Calibeur packet whose first three bytes are all zero: even parity, CRC-8
value 0. -/
def calibeurZeroBuf : BitBuffer :=
  ⟨[[], List.replicate 21 false, List.replicate 21 false]⟩

/-- Calibeur packet with odd parity (leading 1 bit) and byte-identical rows 1
and 2. -/
def calibeurOddBuf : BitBuffer :=
  ⟨[[], true :: List.replicate 20 false, true :: List.replicate 20 false]⟩

/-- Calibeur packet whose rows 1 and 2 differ in their first byte. -/
def calibeurDiffBuf : BitBuffer :=
  ⟨[[], true :: List.replicate 20 false, List.replicate 21 false]⟩

/-! ## Theorems -/

theorem sum_set_getD (l : List Nat) (i v : Nat) (h : i < l.length) :
    (l.set i v).sum + l.getD i 0 = l.sum + v := by
  induction l generalizing i with
  | nil => simp at h
  | cons a t ih =>
    cases i with
    | zero => simp [List.set]; omega
    | succ j =>
      have hj : j < t.length := by simpa using h
      have := ih j hj
      simp only [List.set, List.sum_cons, List.getD_cons_succ]
      omega

theorem getD_lt_of_forall (l : List Nat) (i : Nat) (h : i < l.length)
    (hb : ∀ x ∈ l, x < 256) : l.getD i 0 < 256 := by
  rw [List.getD_eq_getElem l 0 h]
  exact hb _ (List.getElem_mem h)

/-- C1: the byte-sum checksum stage of `parse_msg` accepts a decoded region
iff the sum of all its bytes is 0 mod 256, and changing any single byte of a
summed byte list whose total is 0 mod 256 to a different byte value makes the
sum non-zero mod 256. -/
theorem honeywell_checksum_iff :
    (∀ bs : List Bool, (parse_msg bs).1 = true ↔ (msgBytes bs).sum % 256 = 0) ∧
    (∀ (l : List Nat) (i v : Nat), l.sum % 256 = 0 → (∀ x ∈ l, x < 256) →
      i < l.length → v < 256 → v ≠ l.getD i 0 → (l.set i v).sum % 256 ≠ 0) := by
  constructor
  · intro bs
    unfold parse_msg
    by_cases h : (msgBytes bs).sum % 256 = 0
    · simp [h]
    · simp [h]
  · intro l i v hsum hb hi hv hne hzero
    have hset := sum_set_getD l i v hi
    have hgd := getD_lt_of_forall l i hi hb
    omega

/-- Witness for C1: the all-zero one-byte region is accepted and flipping the
first byte of the accepted byte list `[1, 255]` to 2 breaks the sum. -/
theorem honeywell_checksum_iff_w :
    (parse_msg (List.replicate 8 false)).1 = true ∧
      (([1, 255] : List Nat).set 0 2).sum % 256 ≠ 0 :=
  ⟨(honeywell_checksum_iff.1 _).mpr (by decide),
   honeywell_checksum_iff.2 [1, 255] 0 2 (by decide) (by decide) (by decide)
     (by decide) (by decide)⟩

/-- C3 counterexample: the identifier bytes `[0x04, 0x00, 0x2A]` have type
field `0x04 >> 2 = 1`, which `device_map` maps to "CTL", not "TRV". -/
theorem decode_device_id_not_trv :
    (decode_device_id 0x04 0x00 0x2A).1 ≠ "TRV" := by decide

/-- C3 (amended): identifier bytes `[0x04, 0x00, 0x2A]` decode to the tag
"CTL" (type 1, the controller class) and serial 42. -/
theorem decode_device_id_ctl :
    decode_device_id 0x04 0x00 0x2A = ("CTL", 42) := by decide

/-- A parsed message with command 0x2309 and the 3-byte payload of the spec's
scenario. -/
def msg2309_3 : Message := { command := 0x2309, payload_length := 3, payload := [0x01, 0x09, 0xC4] }

/-- The same command code with a 2-byte payload. -/
def msg2309_2 : Message := { command := 0x2309, payload_length := 2, payload := [0x01, 0x09] }

/-- C4: command 0x2309 with payload length 3 and payload `[0x01, 0x09, 0xC4]`
interprets to zone 1 and setpoint 2500/100 = 25; the same code with payload
length 2 falls back to a Reading carrying only the raw command code under
"unknown". -/
theorem interpret_2309 :
    interpret_message msg2309_3 [] =
      [("Device IDs", .hexs []), ("zone", .i 1), ("setpoint", .q 25)] ∧
    interpret_message msg2309_2 [] =
      [("Device IDs", .hexs []), ("unknown", .i 0x2309)] := by
  constructor
  · simp only [interpret_message, msg2309_3, decode_device_ids, data_append, pl]
    norm_num
  · decide

/-- C6: at the 12-bit two's-complement pattern 0xFFF (the encoding of −1) the
auriol extraction sign-extends correctly to −1, but the holman_ws5029 PWM
extraction — whose container is declared `uint16_t` despite the "uses
sign-extend" comment — produces the unsigned value 0xFFF = 4095. -/
theorem sign_extend_idiom :
    auriol_temp_shifted 0xF 0xFF = signed12 0xFFF ∧ signed12 0xFFF = -1 ∧
      holman_temp_shifted 0xF 0xFF = 4095 := by decide

/-- C9 counterexample: a 60-bit all-zero row (long enough, no preamble
anywhere) is rejected with exactly the same `DECODE_ABORT_LENGTH` outcome as a
59-bit row that fails the minimum-length gate — the pattern-not-found case is
not a distinct reason. -/
theorem hw_preamble_same_reason :
    honeywell_cm921_decode true hwNoPreambleBuf = some .abortLength ∧
      honeywell_cm921_decode true hwShortBuf = some .abortLength := by decide

/-- C9 (amended): for a single-row input, a row shorter than 60 bits aborts
with the length code, and a sufficiently long row in which the preamble does
not occur also aborts with the same length code (the not-found search result
makes the residual length negative). -/
theorem hw_preamble_rejects (bb : BitBuffer) (d : Bool) (h1 : bb.rows.length = 1) :
    ((rowAt bb 0).length < 60 → honeywell_cm921_decode d bb = some .abortLength) ∧
    (60 ≤ (rowAt bb 0).length → bbSearch (rowAt bb 0) preamblePattern = none →
      honeywell_cm921_decode d bb = some .abortLength) := by
  constructor
  · intro h
    unfold honeywell_cm921_decode
    rw [if_pos (Or.inr h)]
  · intro h2 h3
    unfold honeywell_cm921_decode
    rw [if_neg (by omega), h3]
    simp only [Option.getD_none]
    rw [if_pos (by omega)]

/-- Witness for C9's amended statement at a 58-bit row and at a 70-bit
all-zero row. -/
theorem hw_preamble_rejects_w :
    honeywell_cm921_decode true ⟨[List.replicate 58 false]⟩ = some .abortLength ∧
      honeywell_cm921_decode true ⟨[List.replicate 70 false]⟩ = some .abortLength :=
  ⟨(hw_preamble_rejects ⟨[List.replicate 58 false]⟩ true (by decide)).1 (by decide),
   (hw_preamble_rejects ⟨[List.replicate 70 false]⟩ true (by decide)).2 (by decide)
     (by decide)⟩

/-- C10: a packet of exactly 12 rows of 36 bits in which row 0 differs from
the 11 identical remaining rows passes the row-count and length gates, yet the
consensus search finds no row repeated 12 times — the decoder then uses the
not-found result as the row index (`bb[-1]` in the C, the out-of-bounds `none`
outcome of the embedding). -/
theorem auriol_consensus_oob :
    auriolBadBuf.rows.length = 12 ∧
      ((List.range 12).all fun i => (rowAt auriolBadBuf i).length == 36) = true ∧
      findRepeatedRow auriolBadBuf 12 36 = none ∧
      auriol_afw2a1_decode auriolBadBuf = none := by decide

/-- C7 counterexample: a 21-bit row whose first three bytes are all zero,
repeated identically in rows 1 and 2, has `crc8(..., 0x80, 0) = 0` — and the
decoder rejects it (the source demands a *non-zero* value, "odd parity"),
contrary to the claim that a zero XOR-reduction is accepted. -/
theorem calibeur_even_parity_rejected :
    crc8 [byteAt (rowAt calibeurZeroBuf 1) 0, byteAt (rowAt calibeurZeroBuf 1) 8,
        byteAt (rowAt calibeurZeroBuf 1) 16] 0x80 0 = 0 ∧
      (rowAt calibeurZeroBuf 1).length = 21 ∧
      rowAt calibeurZeroBuf 1 = rowAt calibeurZeroBuf 2 ∧
      calibeur_rf104_callback calibeurZeroBuf = .failOther := by decide

/-- C7 (amended): a packet whose row 1 has 21 bits, whose rows 1 and 2 agree
on their first 3 bytes, and whose first 3 bytes have a *non-zero*
`crc8(..., 0x80, 0)` value (odd parity) yields a Reading with a temperature
and humidity pair; if the two repeated rows differ in one of those bytes the
callback returns the rejection outcome 0 and emits nothing. -/
theorem calibeur_21bit (bb : BitBuffer) :
    ((rowAt bb 1).length = 21 →
      crc8 [byteAt (rowAt bb 1) 0, byteAt (rowAt bb 1) 8, byteAt (rowAt bb 1) 16] 0x80 0 ≠ 0 →
      [byteAt (rowAt bb 1) 0, byteAt (rowAt bb 1) 8, byteAt (rowAt bb 1) 16] =
        [byteAt (rowAt bb 2) 0, byteAt (rowAt bb 2) 8, byteAt (rowAt bb 2) 16] →
      ∃ t h r, calibeur_rf104_callback bb = .emit r ∧
        ("temperature_C", Value.q t) ∈ r ∧ ("humidity", Value.q h) ∈ r) ∧
    ((rowAt bb 1).length = 21 →
      [byteAt (rowAt bb 1) 0, byteAt (rowAt bb 1) 8, byteAt (rowAt bb 1) 16] ≠
        [byteAt (rowAt bb 2) 0, byteAt (rowAt bb 2) 8, byteAt (rowAt bb 2) 16] →
      calibeur_rf104_callback bb = .failOther) := by
  constructor
  · intro h1 h2 h3
    simp only [calibeur_rf104_callback]
    rw [if_pos ⟨h1, h2, h3⟩]
    exact ⟨_, _, _, rfl,
      List.mem_cons_of_mem _ (List.mem_cons_of_mem _ (List.mem_cons_of_mem _
        (List.mem_cons_self _ _))),
      List.mem_cons_of_mem _ (List.mem_cons_of_mem _ (List.mem_cons_of_mem _
        (List.mem_cons_of_mem _ (List.mem_cons_self _ _))))⟩
  · intro h1 h3
    simp only [calibeur_rf104_callback]
    rw [if_neg (by tauto)]

/-- Witness for C7's amended statement: an odd-parity packet emits a Reading
with temperature and humidity, and the same packet with a differing byte in
row 2 is rejected. -/
theorem calibeur_21bit_w :
    (∃ t h r, calibeur_rf104_callback calibeurOddBuf = .emit r ∧
      ("temperature_C", Value.q t) ∈ r ∧ ("humidity", Value.q h) ∈ r) ∧
    calibeur_rf104_callback calibeurDiffBuf = .failOther :=
  ⟨(calibeur_21bit calibeurOddBuf).1 (by decide) (by decide) (by decide),
   (calibeur_21bit calibeurDiffBuf).2 (by decide) (by decide)⟩

/-- Stage lemma for the honeywell pipeline: when the length gate, preamble
search, residual-length check, header gate and footer scan all pass, the
decode is the Manchester-stage tail. -/
theorem hw_decode_after_footer (dbg : Bool) (bb : BitBuffer) (p fi : Nat)
    (h1 : bb.rows.length = 1) (h2 : 60 ≤ (rowAt bb 0).length)
    (h3 : bbSearch (rowAt bb 0) preamblePattern = some p)
    (h4 : p + 38 ≤ (rowAt bb 0).length)
    (h5 : headerOk (hwBytes (rowAt bb 0) (p + 30)) = true)
    (h6 : footerScan (hwBytes (rowAt bb 0) (p + 30))
        (((hwBytes (rowAt bb 0) (p + 30)).length - 8) + 1)
        ((hwBytes (rowAt bb 0) (p + 30)).length - 8) false = some (fi, true))
    (h7 : byteAt (hwBytes (rowAt bb 0) (p + 30)) fi = 0x35) :
    honeywell_cm921_decode dbg bb = hwAfterFooter dbg (hwBytes (rowAt bb 0) (p + 30)) fi := by
  simp only [honeywell_cm921_decode, h1, h3, Option.getD_some, h5, h6]
  rw [if_neg (by omega), if_neg (by omega), if_neg (by simp), if_neg (by simp [h7])]

/-- On a failing byte-sum, `parse_msg` returns `0` with the zero message
(only `crc` filled in). -/
theorem parse_msg_failed (pk : List Bool) (h : (msgBytes pk).sum % 256 ≠ 0) :
    parse_msg pk = (false, { crc := byteAt pk (pk.length - 8) }) := by
  unfold parse_msg
  rw [if_pos h]

/-- The Reading `honeywell_cm921_decode` emits when the byte-sum checksum of
the decoded region fails: only the model and raw packet hex, plus (in a debug
build) the diagnostic fields of the zero message. -/
def hwFailReading (dbg : Bool) (pk : List Bool) (manErrors : Nat) : Reading :=
  let data : Reading := [("model", .s "Honeywell CM921"),
                         ("Packet", .hexs (hexOfRow pk))]
  if dbg then debugFields { crc := byteAt pk (pk.length - 8) } manErrors data else data

/-- C2 counterexample: a packet whose decoded region is the single byte 0x01
(byte-sum 1 mod 256, checksum fails) is *not* dropped silently — the decoder
emits a Reading with the model, packet hex and debug fields. -/
theorem hw_badsum_still_emits :
    (msgBytes (manchester (((hwBytes (rowAt hwBadSumBuf 0) 30).drop 24).take 16)).1).sum % 256 = 1 ∧
      honeywell_cm921_decode true hwBadSumBuf = some (.emit
        [("model", .s "Honeywell CM921"), ("Packet", .hexs [1]), ("Header", .hexs [0]),
         ("Command", .hexs [0, 0]), ("CRC", .hexs [1]), ("# man errors", .i 0)]) := by decide

/-- C2 (amended): when the pipeline reaches the message-parse stage and the
byte-sum checksum of the decoded region fails, the message fields are dropped
(not parsed or interpreted), but the decoder still emits a Reading containing
the model and raw packet hex (plus debug fields) and returns success. -/
theorem hw_badsum_emits (dbg : Bool) (bb : BitBuffer) (p fi : Nat)
    (h1 : bb.rows.length = 1) (h2 : 60 ≤ (rowAt bb 0).length)
    (h3 : bbSearch (rowAt bb 0) preamblePattern = some p)
    (h4 : p + 38 ≤ (rowAt bb 0).length)
    (h5 : headerOk (hwBytes (rowAt bb 0) (p + 30)) = true)
    (h6 : footerScan (hwBytes (rowAt bb 0) (p + 30))
        (((hwBytes (rowAt bb 0) (p + 30)).length - 8) + 1)
        ((hwBytes (rowAt bb 0) (p + 30)).length - 8) false = some (fi, true))
    (h7 : byteAt (hwBytes (rowAt bb 0) (p + 30)) fi = 0x35)
    (h8 : dbg = true ∨ (manchester (((hwBytes (rowAt bb 0) (p + 30)).drop 24).take (fi - 24))).2 = 0)
    (h9 : (msgBytes (manchester (((hwBytes (rowAt bb 0) (p + 30)).drop 24).take (fi - 24))).1).sum % 256 ≠ 0) :
    honeywell_cm921_decode dbg bb = some (.emit (hwFailReading dbg
      (manchester (((hwBytes (rowAt bb 0) (p + 30)).drop 24).take (fi - 24))).1
      (manchester (((hwBytes (rowAt bb 0) (p + 30)).drop 24).take (fi - 24))).2)) := by
  rw [hw_decode_after_footer dbg bb p fi h1 h2 h3 h4 h5 h6 h7]
  unfold hwAfterFooter
  rcases hq : manchester (((hwBytes (rowAt bb 0) (p + 30)).drop 24).take (fi - 24)) with ⟨pk, me⟩
  rw [hq] at h8 h9
  simp only [hq]
  rw [if_neg (by rcases h8 with h | h <;> simp_all)]
  rw [parse_msg_failed pk h9]
  rfl

/-- Witness for C2's amended statement at the concrete bad-checksum packet. -/
theorem hw_badsum_emits_w :
    honeywell_cm921_decode true hwBadSumBuf = some (.emit (hwFailReading true
      (manchester (((hwBytes (rowAt hwBadSumBuf 0) (0 + 30)).drop 24).take (40 - 24))).1
      (manchester (((hwBytes (rowAt hwBadSumBuf 0) (0 + 30)).drop 24).take (40 - 24))).2)) :=
  hw_badsum_emits true hwBadSumBuf 0 40 (by decide) (by decide) (by decide) (by decide)
    (by decide) (by decide) (by decide) (Or.inl rfl) (by decide)

/-- C5: in a non-diagnostic build (`dbg = false`), a packet that reaches the
Manchester stage with a non-zero invalid-pair count is rejected with the
sanity failure and no Reading is emitted. -/
theorem hw_man_errors_reject (bb : BitBuffer) (p fi : Nat)
    (h1 : bb.rows.length = 1) (h2 : 60 ≤ (rowAt bb 0).length)
    (h3 : bbSearch (rowAt bb 0) preamblePattern = some p)
    (h4 : p + 38 ≤ (rowAt bb 0).length)
    (h5 : headerOk (hwBytes (rowAt bb 0) (p + 30)) = true)
    (h6 : footerScan (hwBytes (rowAt bb 0) (p + 30))
        (((hwBytes (rowAt bb 0) (p + 30)).length - 8) + 1)
        ((hwBytes (rowAt bb 0) (p + 30)).length - 8) false = some (fi, true))
    (h7 : byteAt (hwBytes (rowAt bb 0) (p + 30)) fi = 0x35)
    (h8 : (manchester (((hwBytes (rowAt bb 0) (p + 30)).drop 24).take (fi - 24))).2 ≠ 0) :
    honeywell_cm921_decode false bb = some Result.failSanity := by
  rw [hw_decode_after_footer false bb p fi h1 h2 h3 h4 h5 h6 h7]
  unfold hwAfterFooter
  rcases hq : manchester (((hwBytes (rowAt bb 0) (p + 30)).drop 24).take (fi - 24)) with ⟨pk, me⟩
  rw [hq] at h8
  simp only [hq]
  simp [h8]

/-- Witness for C5 at the concrete packet whose region consists of eight
invalid `11` pairs. -/
theorem hw_man_errors_reject_w :
    (manchester (((hwBytes (rowAt hwManErrBuf 0) (0 + 30)).drop 24).take (40 - 24))).2 = 8 ∧
      honeywell_cm921_decode false hwManErrBuf = some Result.failSanity :=
  ⟨by decide,
   hw_man_errors_reject hwManErrBuf 0 40 (by decide) (by decide) (by decide) (by decide)
     (by decide) (by decide) (by decide) (by decide)⟩

/-- Passing the header gate pins down the first three stream bytes. -/
theorem headerOk_eq (bs : List Bool) (h : headerOk bs = true) :
    byteAt bs 0 = 0x33 ∧ byteAt bs 8 = 0x55 ∧ byteAt bs 16 = 0x53 := by
  simpa [headerOk, and_assoc] using h

/-- A stream whose third byte reads 0x53 (an odd value) must extend past bit
23: padding zeros cannot produce it. -/
theorem byteAt_53_len (bs : List Bool) (h : byteAt bs 16 = 0x53) :
    24 ≤ bs.length := by
  by_contra hlen
  have hd : bs.getD (16 + 7) false = false := List.getD_eq_default bs false (by omega)
  have hb : bit bs (16 + 7) = 0 := by unfold bit; rw [hd]; rfl
  unfold byteAt at h
  have h0 := bit_le_one bs 16
  have h1 := bit_le_one bs (16 + 1)
  have h2 := bit_le_one bs (16 + 2)
  have h3 := bit_le_one bs (16 + 3)
  have h4 := bit_le_one bs (16 + 4)
  have h5 := bit_le_one bs (16 + 5)
  have h6 := bit_le_one bs (16 + 6)
  omega

/-- A successful 10-bit group read needs one bit beyond the group. -/
theorem get_byte_lt (row : List Bool) (pos e b : Nat)
    (h : get_byte row pos e = some b) : pos + 10 < e := by
  unfold get_byte at h
  split_ifs at h <;> simp_all

/-- Backward footer scan within a byte-aligned stream: as long as the third
byte (bit 16) is the header's 0x53, the scan stops at a position between bit
16 and its starting point — it never steps below bit 0 of the stream. -/
theorem footer_aux (bs : List Bool) (h53 : byteAt bs 16 = 0x53) :
    ∀ (fuel m : Nat), 2 ≤ m → m ≤ fuel → ∀ seen,
      ∃ fi sn, footerScan bs fuel (8 * m) seen = some (fi, sn) ∧
        16 ≤ fi ∧ fi ≤ 8 * m := by
  intro fuel
  induction fuel with
  | zero => intro m h2 hm; omega
  | succ g ih =>
    intro m h2 hm seen
    by_cases h55 : byteAt bs (8 * m) = 0x55
    · have hm3 : 3 ≤ m := by
        rcases Nat.lt_or_ge m 3 with hlt | hge
        · have h16 : (8 : Nat) * m = 16 := by omega
          rw [h16, h53] at h55
          omega
        · exact hge
      rw [footerScan, if_pos (by simp [h55]), if_neg (by omega)]
      have h8m : 8 * m - 8 = 8 * (m - 1) := by omega
      rw [h8m]
      obtain ⟨fi, sn, heq, h16, hle⟩ := ih (m - 1) (by omega) (by omega) true
      exact ⟨fi, sn, heq, h16, by omega⟩
    · rw [footerScan, if_neg (by simp [h55])]
      exact ⟨8 * m, seen, rfl, by omega, Nat.le_refl _⟩

/-- The frame-stripping loop produces at most one byte per 10 bits of the
scanned range, for every fuel value: its work is bounded by the row's bit
length. -/
theorem stripLoop_length_bound (row : List Bool) :
    ∀ (fuel pos e : Nat), 10 * (stripLoop row fuel pos e).length ≤ e - pos + 9 := by
  intro fuel
  induction fuel with
  | zero => intro pos e; simp [stripLoop]
  | succ g ih =>
    intro pos e
    rw [stripLoop]
    by_cases hp : pos < e
    · rw [if_pos hp]
      cases hgb : get_byte row pos e with
      | some b =>
        have hlt := get_byte_lt row pos e b hgb
        have hr := ih (pos + 10) e
        simp only [List.length_cons]
        omega
      | none => simp
    · rw [if_neg hp]; simp

/-- C8: the honeywell scans are bounded by the row.  After the header gate
passes (a byte-aligned stream starting `33 55 53`), the backward footer scan
terminates at a bit position between 16 and its starting point — it never
walks past the start of the row; and the frame-stripping loop performs at most
one 10-bit group per 10 bits between its start position and the row end,
whatever fuel it is given. -/
theorem hw_scans_bounded :
    (∀ bs : List Bool, headerOk bs = true → 8 ∣ bs.length →
      ∃ fi sn, footerScan bs ((bs.length - 8) + 1) (bs.length - 8) false = some (fi, sn) ∧
        16 ≤ fi ∧ fi ≤ bs.length - 8) ∧
    (∀ (row : List Bool) (fuel pos e : Nat),
      10 * (stripLoop row fuel pos e).length ≤ e - pos + 9) := by
  constructor
  · intro bs hh hdvd
    obtain ⟨k, hk⟩ := hdvd
    have h3 := (headerOk_eq bs hh).2.2
    have h24 : 24 ≤ bs.length := byteAt_53_len bs h3
    have e1 : bs.length - 8 = 8 * (k - 1) := by omega
    rw [e1]
    obtain ⟨fi, sn, heq, h16, hle⟩ :=
      footer_aux bs h3 (8 * (k - 1) + 1) (k - 1) (by omega) (by omega) false
    exact ⟨fi, sn, heq, h16, hle⟩
  · exact fun row => stripLoop_length_bound row

/-- Witness for C8 at a concrete 5-byte stream (the wire bytes `CC AA CA AC
AA`, whose bit-reversed stream reads as header `33 55 53`, footer `35` and one
filler `55`) and a concrete 99-bit row. -/
theorem hw_scans_bounded_w :
    (∃ fi sn, footerScan (bytesStream [0xCC, 0xAA, 0xCA, 0xAC, 0xAA])
        (((bytesStream [0xCC, 0xAA, 0xCA, 0xAC, 0xAA]).length - 8) + 1)
        ((bytesStream [0xCC, 0xAA, 0xCA, 0xAC, 0xAA]).length - 8) false = some (fi, sn) ∧
        16 ≤ fi ∧ fi ≤ (bytesStream [0xCC, 0xAA, 0xCA, 0xAC, 0xAA]).length - 8) ∧
      10 * (stripLoop (List.replicate 99 false) 99 0 99).length ≤ 99 - 0 + 9 :=
  ⟨hw_scans_bounded.1 (bytesStream [0xCC, 0xAA, 0xCA, 0xAC, 0xAA]) (by decide) (by decide),
   hw_scans_bounded.2 (List.replicate 99 false) 99 0 99⟩

end RTL433
